import Mathlib

/-!
Verification of the scheduled-dispatch engine of the webhook-management
application: the sliding-window rate limiter (`src/unnamed/part_000`), the
Dash scheduler (`src/Dash/index.js`), the dispatcher and analytics queue
(`src/System/deepseek_typescript_20251113_588030.ts`), and the rolling
statistics aggregator.  Each definition is a shallow embedding of the
corresponding source function; timestamps are integers (milliseconds),
fallible operations are explicit, and the outcome of an outbound call is an
explicit parameter standing for the behaviour of the network.
-/

namespace RateLimiter

/-- The per-identifier map `requests : Map<string, number[]>` of class
`RateLimiter`.  A missing key behaves as the empty list, matching the
`has`/`set([])`/`get` sequence at the top of `checkLimit`. -/
def RateLimiterState := String → List Int

/-- The empty map: no identifier has recorded calls. -/
def emptyState : RateLimiterState := fun _ => []

/-- Core of `checkLimit` acting on one identifier's timestamp list
(`src/unnamed/part_000`, lines 4-25): drop timestamps at or before
`now - windowMs`, then allow (recording `now`) exactly when the remaining
count is below `limit`. -/
def checkLimitCore (requests : List Int) (now limit windowMs : Int) :
    Bool × List Int :=
  let windowStart := now - windowMs
  let recentRequests := requests.filter (fun time => windowStart < time)
  if (recentRequests.length : Int) < limit then
    (true, recentRequests ++ [now])
  else
    (false, recentRequests)

/-- `checkLimit(identifier, limit = 60, windowMs = 60000)` with `now` the
value of `Date.now()`: prune the identifier's list, then allow and record,
or reject; other identifiers are untouched. -/
def checkLimit (st : RateLimiterState) (identifier : String)
    (now limit windowMs : Int) : Bool × RateLimiterState :=
  let r := checkLimitCore (st identifier) now limit windowMs
  (r.1, fun id => if id = identifier then r.2 else st id)

/-- `getRemainingRequests(identifier, limit = 60)`: count the identifier's
timestamps inside the default 60000 ms window, without mutating state. -/
def getRemainingRequests (st : RateLimiterState) (identifier : String)
    (now limit : Int) : Int :=
  let windowStart := now - 60000
  let recentRequests := (st identifier).filter (fun time => windowStart < time)
  max 0 (limit - recentRequests.length)

/-- Run `checkLimit` for one identifier over a list of call times, returning
the list of allow/reject answers and the final state. -/
def runCalls (st : RateLimiterState) (identifier : String)
    (limit windowMs : Int) : List Int → List Bool × RateLimiterState
  | [] => ([], st)
  | t :: ts =>
    let r := checkLimit st identifier t limit windowMs
    let rest := runCalls r.2 identifier limit windowMs ts
    (r.1 :: rest.1, rest.2)

/-- The allow/reject pattern the sliding window produces: call number
`k + i` is allowed exactly when `k + i < limit`. -/
def slidingResults (limit : Int) : Int → Nat → List Bool
  | _, 0 => []
  | k, n + 1 => decide (k < limit) :: slidingResults limit (k + 1) n

end RateLimiter

namespace WebhookManagerPro

/-- The behaviour of the network for one `fetch` call issued by
`sendDiscordWebhook`: the response headers arrive after `arrivalMs` with a
status code and a body that does or does not parse as JSON, or the fetch
rejects with a transport-level error after `arrivalMs`, or nothing ever
arrives. -/
inductive FetchBehavior where
  | response (status : Nat) (arrivalMs : Nat) (bodyIsJson : Bool)
  | transportFailure (arrivalMs : Nat)
  | hang
  deriving DecidableEq

/-- The classified result observed by a caller of `sendDiscordWebhook`:
the parsed body (success), or the distinct thrown errors — the
`HTTP <status>` error, the abort-timeout error, the rethrown transport
error, and the rethrown body-parse error. -/
inductive SendOutcome where
  | ok
  | httpError (status : Nat)
  | timeoutError
  | transportError
  | parseError
  deriving DecidableEq

/-- The hard deadline: `setTimeout(() => controller.abort(), 10000)`. -/
def timeoutMsDefault : Nat := 10000

/-- `WebhookManagerPro.sendDiscordWebhook(url, data)`
(`src/System/deepseek_typescript_20251113_588030.ts`, lines 637-665): abort
after 10000 ms; once the response arrives the timer is cleared, a non-ok
status throws `HTTP <status>`, otherwise the body is parsed with
`response.json()` (whose failure is rethrown as-is); an `AbortError` is
rethrown as the timeout error and any other rejection as-is. -/
def sendDiscordWebhook (b : FetchBehavior) : SendOutcome :=
  match b with
  | .response status arrivalMs bodyIsJson =>
    if arrivalMs < timeoutMsDefault then
      if 200 ≤ status ∧ status < 300 then
        if bodyIsJson then .ok else .parseError
      else .httpError status
    else .timeoutError
  | .transportFailure arrivalMs =>
    if arrivalMs < timeoutMsDefault then .transportError else .timeoutError
  | .hang => .timeoutError

/-- No response of any kind is obtained before the 10000 ms deadline. -/
def deadlineElapsed (b : FetchBehavior) : Prop :=
  match b with
  | .response _ arrivalMs _ => timeoutMsDefault ≤ arrivalMs
  | .transportFailure arrivalMs => timeoutMsDefault ≤ arrivalMs
  | .hang => True

end WebhookManagerPro

namespace AnalyticsService

/-- One queued analytics event: the event name, its property bag left
abstract as an opaque payload string, and the timestamp. -/
structure AnalyticsEvent where
  event : String
  payload : String
  timestamp : Int
  deriving DecidableEq

/-- The mutable state of `AnalyticsService`: the consent flag `enabled`
and the in-memory buffer `queue`. -/
structure State where
  enabled : Bool
  queue : List AnalyticsEvent
  deriving DecidableEq

/-- The event names that trigger an immediate flush in `track`. -/
def priorityEvents : List String := ["error", "pageview", "webhook_created"]

/-- `AnalyticsService.track(event, properties)`: when enabled, append the
event to the buffer; the returned flag records whether the source would
call `flush()` immediately (priority event names). -/
def track (st : State) (e : AnalyticsEvent) : State × Bool :=
  if st.enabled then
    ({ st with queue := st.queue ++ [e] }, priorityEvents.contains e.event)
  else (st, false)

/-- Tracking a list of events in order (keeping only the state). -/
def trackAll (st : State) (es : List AnalyticsEvent) : State :=
  es.foldl (fun s e => (track s e).1) st

/-- `AnalyticsService.flush()` (lines 1344-1364): return at once on an
empty buffer; otherwise swap the buffer out, attempt delivery of the batch,
and on failure `unshift` the batch back onto the front of the live buffer.
`deliverOk` is the outcome of the delivery attempt and `during` the events
appended to the live buffer while the delivery was in flight. -/
def flush (st : State) (deliverOk : Bool) (during : List AnalyticsEvent) :
    State :=
  if st.queue.isEmpty then st
  else
    let events := st.queue
    if deliverOk then { st with queue := during }
    else { st with queue := events ++ during }

end AnalyticsService

namespace StatsAggregator

/-- The embedded `Stats` record of §3: counters, last execution time and
the rolling average response time (a rational, standing for the source's
floating-point number — every quantity the claims touch is exact in ℚ). -/
structure Stats where
  totalCount : Nat
  successCount : Nat
  failureCount : Nat
  lastExecutedAt : Option Int
  averageResponseTimeMs : Rat
  deriving DecidableEq

/-- Fresh stats, as created for a new webhook or schedule. -/
def emptyStats : Stats :=
  { totalCount := 0, successCount := 0, failureCount := 0
    lastExecutedAt := none, averageResponseTimeMs := 0 }

/-- Modelled from the spec: the stats-update routine
(`updateWebhookStats` / `updateScheduleStats`) is invoked throughout
`src/System/deepseek_typescript_20251113_588030.ts` (lines 602, 624, 692,
722, 816, 822, 841) with `{ success, responseTime }` — failures always pass
`responseTime: 0` — but its definition is not among the source files.  Per
§4.4: `totalCount += 1`; the matching success/failure counter increments;
`lastExecutedAt = now`; and the rolling average is updated by the
incremental-mean formula `avg ← avg + (latency − avg) / totalCount`. -/
def record (st : Stats) (success : Bool) (responseTime : Rat) (now : Int) :
    Stats :=
  let total := st.totalCount + 1
  { totalCount := total
    successCount := st.successCount + if success then 1 else 0
    failureCount := st.failureCount + if success then 0 else 1
    lastExecutedAt := some now
    averageResponseTimeMs :=
      st.averageResponseTimeMs
        + (responseTime - st.averageResponseTimeMs) / (total : Rat) }

end StatsAggregator

namespace WebhookManager

/-- A calendar datetime in the Gregorian calendar, as read off a JavaScript
`Date`: the year, a zero-based month (0 = January .. 11 = December), the
one-based day of month, and the milliseconds elapsed within the day.  The
scheduler's `scheduleTime` ISO strings and the tick's `new Date()` are both
values of this type; daylight-saving shifts are not modelled, so one
calendar day is a fixed 24 hours. -/
structure JsDate where
  year : Int
  month : Int
  day : Int
  msOfDay : Int
  deriving DecidableEq

/-- Gregorian leap-year rule, as JavaScript dates implement it. -/
def isLeapYear (y : Int) : Bool :=
  (y % 4 == 0 && y % 100 != 0) || y % 400 == 0

/-- Number of days of month `m` (zero-based) in year `y`. -/
def daysInMonth (y m : Int) : Int :=
  if m = 3 ∨ m = 5 ∨ m = 8 ∨ m = 10 then 30
  else if m = 1 then (if isLeapYear y then 29 else 28)
  else 31

/-- Normalisation step of a JavaScript date whose day-of-month has been set
past the end of its month: roll the overflow into the following months.
The fuel bounds the number of rolls; two suffice for every value
`setDate`/`setMonth` is called with here (day at most 38). -/
def rollForward : Nat → JsDate → JsDate
  | 0, dt => dt
  | fuel + 1, dt =>
    if dt.day ≤ daysInMonth dt.year dt.month then dt
    else
      rollForward fuel
        { year := if dt.month = 11 then dt.year + 1 else dt.year
          month := if dt.month = 11 then 0 else dt.month + 1
          day := dt.day - daysInMonth dt.year dt.month
          msOfDay := dt.msOfDay }

/-- JavaScript `date.setDate(x)`: set the day-of-month to `x` and let the
date normalise itself by rolling any overflow into later months. -/
def jsSetDate (dt : JsDate) (x : Int) : JsDate :=
  rollForward 2 { dt with day := x }

/-- JavaScript `date.setMonth(m)`: set the (zero-based) month to `m`,
rolling a month overflow into the year and then a day overflow into the
following month — so advancing Jan 31 by one month lands on Mar 3. -/
def jsSetMonth (dt : JsDate) (m : Int) : JsDate :=
  rollForward 2 { dt with year := dt.year + m / 12, month := m % 12 }

/-- A well-formed calendar datetime. -/
def ValidDate (dt : JsDate) : Prop :=
  0 ≤ dt.month ∧ dt.month < 12 ∧ 1 ≤ dt.day
    ∧ dt.day ≤ daysInMonth dt.year dt.month
    ∧ 0 ≤ dt.msOfDay ∧ dt.msOfDay < 86400000

instance : DecidablePred ValidDate := fun dt => by
  unfold ValidDate
  infer_instance

/-- A monotone integer encoding of a datetime: on valid dates its order is
exactly chronological order, which is what comparing two JavaScript dates
(`new Date(schedule.scheduleTime) <= now`) does. -/
def JsDate.encode (dt : JsDate) : Int :=
  ((dt.year * 12 + dt.month) * 32 + dt.day) * 86400000 + dt.msOfDay

/-- `d1 <= d2` on JavaScript dates. -/
def jsDateLe (a b : JsDate) : Bool :=
  decide (a.encode ≤ b.encode)

/-- The calendar successor of a date — "plus one day", stated from the
spec's words independently of `setDate`. -/
def nextDay (dt : JsDate) : JsDate :=
  if dt.day < daysInMonth dt.year dt.month then
    { dt with day := dt.day + 1 }
  else
    { year := if dt.month = 11 then dt.year + 1 else dt.year
      month := if dt.month = 11 then 0 else dt.month + 1
      day := 1
      msOfDay := dt.msOfDay }

/-- "Plus `n` days": the `n`-fold calendar successor. -/
def plusDays : Nat → JsDate → JsDate
  | 0, dt => dt
  | n + 1, dt => nextDay (plusDays n dt)

/-- "Plus one calendar month", stated from the claim's words: step to the
following month keeping the day-of-month, rolling a day past the target
month's end into the month after (the native rollover the source relies
on). -/
def plusOneMonth (dt : JsDate) : JsDate :=
  let y := if dt.month = 11 then dt.year + 1 else dt.year
  let m := if dt.month = 11 then 0 else dt.month + 1
  if dt.day ≤ daysInMonth y m then
    { year := y, month := m, day := dt.day, msOfDay := dt.msOfDay }
  else
    { year := if m = 11 then y + 1 else y
      month := if m = 11 then 0 else m + 1
      day := dt.day - daysInMonth y m
      msOfDay := dt.msOfDay }

/-- A webhook of the Dash manager (`this.webhooks`): Dash webhooks carry no
active flag — only an id, a name and a target url. -/
structure Webhook where
  id : String
  name : String
  url : String
  deriving DecidableEq

/-- A schedule of the Dash manager (`this.schedules`): the owning webhook
reference, the message payload, the active flag, the due time and the
recurrence string `repetition` (the source's `repeat` field, a keyword in
Lean), one of "once", "daily", "weekly", "monthly" or anything else. -/
structure Schedule where
  id : String
  webhookId : String
  message : String
  active : Bool
  scheduleTime : JsDate
  repetition : String
  deriving DecidableEq

/-- The manager state the scheduler touches: the webhook list, the schedule
list and the activity log (kept as its `type` strings, which is what
`updateStats` counts). -/
structure DashState where
  webhooks : List Webhook
  schedules : List Schedule
  activities : List String
  deriving DecidableEq

/-- The outcome of the `fetch` of one scheduled dispatch: an ok (2xx)
response, a non-ok response (which `executeSchedule` turns into a thrown
`HTTP <status>`), or a rejected fetch. -/
inductive Dispatch where
  | ok
  | httpError (status : Nat)
  | networkError
  deriving DecidableEq

/-- `WebhookManager.addActivity(type, message)` (lines 865-884): push the
activity onto the log and, when the log then exceeds 100 entries, keep only
the last 100 (`this.activities.slice(-100)`), evicting the oldest. -/
def addActivity (activities : List String) (type : String) : List String :=
  let pushed := activities ++ [type]
  if 100 < pushed.length then pushed.drop (pushed.length - 100) else pushed

/-- `WebhookManager.calculateNextSchedule(schedule)` (lines 652-664): the
next due time computed from the schedule's own `scheduleTime` — one
`setDate(+1)` for daily, `setDate(+7)` for weekly, `setMonth(+1)` for
monthly, and `null` for every other repetition value. -/
def calculateNextSchedule (schedule : Schedule) : Option JsDate :=
  match schedule.repetition with
  | "daily" => some (jsSetDate schedule.scheduleTime (schedule.scheduleTime.day + 1))
  | "weekly" => some (jsSetDate schedule.scheduleTime (schedule.scheduleTime.day + 7))
  | "monthly" => some (jsSetMonth schedule.scheduleTime (schedule.scheduleTime.month + 1))
  | _ => none

/-- `WebhookManager.executeSchedule(schedule)` (lines 611-650), with the
fetch's outcome an explicit parameter; the returned flag records whether a
network call was attempted.  If the webhook lookup fails the function
returns at once, touching nothing.  On an ok response it logs
`message_sent` through `addActivity` (which caps the log at 100 entries);
a non-once schedule whose `calculateNextSchedule` is non-null gets its
stored `scheduleTime` replaced, a once schedule is removed from the list.
On a thrown error (non-ok status or rejected fetch) it only logs
`message_failed` through `addActivity`. -/
def executeSchedule (st : DashState) (schedule : Schedule)
    (fetchResult : Dispatch) : DashState × Bool :=
  match st.webhooks.find? (fun w => w.id == schedule.webhookId) with
  | none => (st, false)
  | some _ =>
    match fetchResult with
    | .ok =>
      let st1 : DashState := { st with activities := addActivity st.activities "message_sent" }
      if schedule.repetition ≠ "once" then
        match calculateNextSchedule schedule with
        | some nextTime =>
          ({ st1 with
              schedules := st1.schedules.map (fun s =>
                if s.id == schedule.id then { s with scheduleTime := nextTime } else s) },
            true)
        | none => (st1, true)
      else
        ({ st1 with
            schedules := st1.schedules.filter (fun s => s.id != schedule.id) },
          true)
    | _ =>
      ({ st with activities := addActivity st.activities "message_failed" }, true)

/-- One tick of `startScheduleChecker` (lines 600-609): the schedules the
tick fires `executeSchedule` on — every schedule that is active with
`scheduleTime ≤ now`.  The tick consults nothing else: there is no
in-flight flag anywhere in the state. -/
def dueSchedules (st : DashState) (now : JsDate) : List Schedule :=
  st.schedules.filter (fun s => s.active && jsDateLe s.scheduleTime now)

/-- The dashboard's failed-message count (line 219): the number of
`message_failed` activities. -/
def failedMessages (st : DashState) : Nat :=
  (st.activities.filter (fun a => a == "message_failed")).length

/-- A concrete schedule used by the witnesses: active, with the given id,
webhook reference, repetition and due time. -/
def mkSchedule (i wid rep : String) (t : JsDate) : Schedule :=
  { id := i, webhookId := wid, message := "m", active := true,
    scheduleTime := t, repetition := rep }

/-- A concrete webhook used by the witnesses. -/
def mkWebhook (i : String) : Webhook :=
  { id := i, name := "n", url := "u" }

end WebhookManager

namespace RateLimiter

theorem checkLimitCore_fst (requests : List Int) (now limit windowMs : Int) :
    (checkLimitCore requests now limit windowMs).1 =
      decide (((requests.filter (fun time => now - windowMs < time)).length : Int) < limit) := by
  simp only [checkLimitCore]
  split <;> simp_all

theorem checkLimit_proj (st : RateLimiterState) (identifier : String)
    (now limit windowMs : Int) :
    (checkLimit st identifier now limit windowMs).1
        = (checkLimitCore (st identifier) now limit windowMs).1
      ∧ (checkLimit st identifier now limit windowMs).2 identifier
        = (checkLimitCore (st identifier) now limit windowMs).2 := by
  constructor
  · rfl
  · simp [checkLimit]

/-- Helper: a filter that keeps everything. -/
theorem filter_window_all (l : List Int) (now windowMs : Int)
    (h : ∀ a ∈ l, now - a < windowMs) :
    l.filter (fun time => now - windowMs < time) = l := by
  rw [List.filter_eq_self]
  intro a ha
  have := h a ha
  simp only [decide_eq_true_eq]
  omega

/-- Helper: once the call index reaches the limit, every answer is a reject. -/
theorem slidingResults_of_le (limit k : Int) (h : limit ≤ k) (n : Nat) :
    slidingResults limit k n = List.replicate n false := by
  induction n generalizing k with
  | zero => rfl
  | succ n ih =>
    simp only [slidingResults, List.replicate, ih (k + 1) (by omega)]
    simp
    omega

/-- Helper: the run only touches the chosen identifier. -/
theorem runCalls_other (st : RateLimiterState) (identifier id2 : String)
    (limit windowMs : Int) (ts : List Int) (hne : id2 ≠ identifier) :
    (runCalls st identifier limit windowMs ts).2 id2 = st id2 := by
  induction ts generalizing st with
  | nil => rfl
  | cons t ts ih =>
    simp only [runCalls]
    rw [ih]
    simp [checkLimit, hne]

/-- Main induction for the sliding window: starting from a recorded prefix
`pre` that precedes all remaining call times, with every pair of involved
times less than one window apart, the run allows calls until the window
holds `limit` timestamps and rejects after that, and the final stored list
is the first `limit` of the involved times. -/
theorem runCalls_window (identifier : String) (limit windowMs : Int)
    (pre : List Int) (ts : List Int) (st : RateLimiterState)
    (hst : st identifier = pre)
    (hlen : (pre.length : Int) ≤ limit)
    (hpre : ∀ a ∈ pre, ∀ b ∈ ts, a ≤ b)
    (hsort : ts.Pairwise (· ≤ ·))
    (hspan : ∀ a ∈ pre ++ ts, ∀ b ∈ pre ++ ts, b - a < windowMs) :
    (runCalls st identifier limit windowMs ts).1
        = slidingResults limit pre.length ts.length
      ∧ (runCalls st identifier limit windowMs ts).2 identifier
        = (pre ++ ts).take limit.toNat := by
  induction ts generalizing pre st with
  | nil =>
    refine ⟨rfl, ?_⟩
    simp only [runCalls, hst, List.append_nil]
    rw [List.take_of_length_le]
    omega
  | cons t ts ih =>
    have hkeep : (pre.filter (fun time => t - windowMs < time)) = pre := by
      apply filter_window_all
      intro a ha
      have := hspan a (by simp [ha]) t (by simp)
      omega
    have hstep : checkLimitCore pre t limit windowMs =
        if (pre.length : Int) < limit then (true, pre ++ [t]) else (false, pre) := by
      simp only [checkLimitCore, hkeep]
    have hspan' : ∀ a ∈ pre ++ t :: ts, ∀ b ∈ pre ++ t :: ts, b - a < windowMs := hspan
    by_cases hcap : (pre.length : Int) < limit
    · -- the call is allowed and `t` is recorded
      have hcl : checkLimit st identifier t limit windowMs
          = (true, fun id => if id = identifier then pre ++ [t] else st id) := by
        simp only [checkLimit, hst, hstep, if_pos hcap]
      have hrec := ih (pre ++ [t])
        (fun id => if id = identifier then pre ++ [t] else st id)
        (by simp)
        (by simp only [List.length_append, List.length_singleton]; push_cast; omega)
        (by intro a ha b hb
            simp only [List.mem_append, List.mem_singleton] at ha
            rcases ha with ha | ha
            · exact hpre a ha b (List.mem_cons_of_mem t hb)
            · subst ha; exact (List.pairwise_cons.mp hsort).1 b hb)
        ((List.pairwise_cons.mp hsort).2)
        (by intro a ha b hb
            apply hspan' <;>
              simp only [List.append_assoc, List.singleton_append] at ha hb ⊢ <;>
              assumption)
      constructor
      · simp only [runCalls, hcl, slidingResults, List.length_cons]
        rw [hrec.1]
        have hd : decide ((pre.length : Int) < limit) = true := by
          simpa using hcap
        rw [hd]
        have hl : ((pre ++ [t]).length : Int) = (pre.length : Int) + 1 := by
          simp
        simp only [List.length_append, List.length_singleton]
        push_cast
        rfl
      · simp only [runCalls, hcl]
        rw [hrec.2]
        simp
    · -- the window is full: the call is rejected and the state is the pruned list
      have hcl : checkLimit st identifier t limit windowMs
          = (false, fun id => if id = identifier then pre else st id) := by
        simp only [checkLimit, hst, hstep, if_neg hcap]
      have hrec := ih pre
        (fun id => if id = identifier then pre else st id)
        (by simp)
        hlen
        (by intro a ha b hb; exact hpre a ha b (List.mem_cons_of_mem t hb))
        ((List.pairwise_cons.mp hsort).2)
        (by intro a ha b hb
            refine hspan' a ?_ b ?_ <;>
              simp only [List.mem_append, List.mem_cons] at ha hb ⊢ <;> tauto)
      constructor
      · simp only [runCalls, hcl, slidingResults, List.length_cons]
        rw [hrec.1]
        have hd : decide ((pre.length : Int) < limit) = false := by
          simpa using hcap
        rw [hd, slidingResults_of_le limit _ (by omega),
          slidingResults_of_le limit _ (by omega)]
      · simp only [runCalls, hcl]
        rw [hrec.2]
        have hl : limit.toNat ≤ pre.length := by omega
        rw [List.take_append_of_le_length hl, List.take_append_of_le_length hl]

/-- Helper: filtering away a present element makes the list strictly shorter. -/
theorem length_filter_lt (l : List Int) (p : Int → Bool) (a : Int)
    (ha : a ∈ l) (hpa : p a = false) : (l.filter p).length < l.length := by
  induction l with
  | nil => cases ha
  | cons x xs ih =>
    rcases List.mem_cons.mp ha with h | h
    · subst h
      have := List.length_filter_le p xs
      simp [List.filter_cons, hpa]
      omega
    · cases hx : p x
      · have := List.length_filter_le p xs
        simp [List.filter_cons, hx]
        omega
      · have := ih h
        simp [List.filter_cons, hx]
        omega

/-- C1: for every identifier, limit `L` and window `W`, a sequence of calls
all lying within one `W`-millisecond span (each pair of call times less than
`W` apart) is allowed exactly on its first `L` calls and rejected from call
`L + 1` on; and once `W` milliseconds have elapsed past one of the stored
(allowed) timestamps — in particular past the oldest — a further call for
that identifier is allowed again.  Call times are taken non-decreasing, as
successive readings of `Date.now()` are. -/
theorem checkLimit_sliding_window (identifier : String) (limit windowMs : Int)
    (hL : 0 < limit) (ts : List Int) (hsort : ts.Pairwise (· ≤ ·))
    (hspan : ∀ a ∈ ts, ∀ b ∈ ts, b - a < windowMs) :
    (runCalls emptyState identifier limit windowMs ts).1
        = slidingResults limit 0 ts.length
      ∧ ∀ now : Int,
        (∃ o ∈ (runCalls emptyState identifier limit windowMs ts).2 identifier,
            o + windowMs ≤ now) →
        (checkLimit ((runCalls emptyState identifier limit windowMs ts).2)
            identifier now limit windowMs).1 = true := by
  have hmain := runCalls_window identifier limit windowMs [] ts emptyState rfl
    (by simp; omega) (by simp) hsort (by simpa using hspan)
  refine ⟨by simpa using hmain.1, ?_⟩
  intro now hex
  obtain ⟨o, ho, hoW⟩ := hex
  rw [(checkLimit_proj _ _ _ _ _).1, checkLimitCore_fst]
  have hS := hmain.2
  simp only [List.nil_append] at hS
  rw [hS] at ho ⊢
  have hlt : ((List.take limit.toNat ts).filter
      (fun time => now - windowMs < time)).length < (List.take limit.toNat ts).length := by
    refine length_filter_lt _ _ o ho ?_
    simp only [decide_eq_false_iff_not, not_lt]
    omega
  have hle : (List.take limit.toNat ts).length ≤ limit.toNat := by
    simp
  simp only [decide_eq_true_eq]
  omega

/-- C1 witness: limit 2, window 10 ms, calls at 0, 1, 2: the first two are
allowed, the third rejected; a further call at 10 (one window past the
oldest stored timestamp 0) is allowed again. -/
theorem checkLimit_sliding_window_witness :
    (runCalls emptyState "id" 2 10 [0, 1, 2]).1 = slidingResults 2 0 3
      ∧ (checkLimit ((runCalls emptyState "id" 2 10 [0, 1, 2]).2)
          "id" 10 2 10).1 = true := by
  have h := checkLimit_sliding_window "id" 2 10 (by decide) [0, 1, 2]
    (by decide) (by decide)
  exact ⟨h.1, h.2 10 ⟨0, by decide, by decide⟩⟩

/-- C10: state invariant of repeated `checkLimit(identifier, L, W)` calls
with fixed `L ≥ 0` and `W > 0`: after any run the identifier's stored list
has length at most `L`; after one further call at time `now` every stored
timestamp is strictly newer than `now - W`; and when that call is rejected
the stored list is exactly the pruned previous list — no timestamp is
appended. -/
theorem checkLimit_state_invariant (identifier : String)
    (limit windowMs : Int) (hL : 0 ≤ limit) (hW : 0 < windowMs)
    (ts : List Int) (now : Int) :
    (((runCalls emptyState identifier limit windowMs ts).2 identifier).length : Int)
        ≤ limit
      ∧ (∀ t ∈ (checkLimit ((runCalls emptyState identifier limit windowMs ts).2)
            identifier now limit windowMs).2 identifier, now - windowMs < t)
      ∧ ((checkLimit ((runCalls emptyState identifier limit windowMs ts).2)
            identifier now limit windowMs).1 = false →
          (checkLimit ((runCalls emptyState identifier limit windowMs ts).2)
              identifier now limit windowMs).2 identifier
            = ((runCalls emptyState identifier limit windowMs ts).2 identifier).filter
                (fun time => now - windowMs < time)) := by
  have hstep : ∀ (l : List Int) (n : Int), ((l.length : Int) ≤ limit) →
      (((checkLimitCore l n limit windowMs).2).length : Int) ≤ limit := by
    intro l n hl
    have hf := List.length_filter_le (fun time => n - windowMs < time) l
    simp only [checkLimitCore]
    split
    · simp only [List.length_append, List.length_singleton]
      push_cast at *
      omega
    · push_cast at *
      omega
  have hlen : ∀ (us : List Int) (st : RateLimiterState),
      ((st identifier).length : Int) ≤ limit →
      (((runCalls st identifier limit windowMs us).2 identifier).length : Int) ≤ limit := by
    intro us
    induction us with
    | nil => intro st h; exact h
    | cons u us ih =>
      intro st h
      simp only [runCalls]
      apply ih
      rw [(checkLimit_proj st identifier u limit windowMs).2]
      exact hstep _ _ h
  have hlen0 := hlen ts emptyState (by simpa [emptyState] using hL)
  refine ⟨hlen0, ?_, ?_⟩
  · intro t ht
    rw [(checkLimit_proj _ _ _ _ _).2] at ht
    simp only [checkLimitCore] at ht
    split at ht
    · simp only [List.mem_append, List.mem_singleton] at ht
      rcases ht with ht | ht
      · have := List.of_mem_filter ht
        simpa using this
      · omega
    · have := List.of_mem_filter ht
      simpa using this
  · intro hrej
    rw [(checkLimit_proj _ _ _ _ _).1, checkLimitCore_fst] at hrej
    rw [(checkLimit_proj _ _ _ _ _).2]
    simp only [decide_eq_false_iff_not, not_lt] at hrej
    simp only [checkLimitCore]
    rw [if_neg (by omega)]

/-- C10 witness: limit 2, window 10 ms, calls at 0, 4, 8 then a probe call
at 13: the stored list stays within the limit, only timestamps newer than
3 survive the probe, and the rejected probe appends nothing. -/
theorem checkLimit_state_invariant_witness :
    (((runCalls emptyState "w" 2 10 [0, 4, 8]).2 "w").length : Int) ≤ 2
      ∧ (∀ t ∈ (checkLimit ((runCalls emptyState "w" 2 10 [0, 4, 8]).2)
            "w" 13 2 10).2 "w", 13 - 10 < t)
      ∧ ((checkLimit ((runCalls emptyState "w" 2 10 [0, 4, 8]).2)
            "w" 13 2 10).1 = false →
          (checkLimit ((runCalls emptyState "w" 2 10 [0, 4, 8]).2)
              "w" 13 2 10).2 "w"
            = ((runCalls emptyState "w" 2 10 [0, 4, 8]).2 "w").filter
                (fun time => 13 - 10 < time)) :=
  checkLimit_state_invariant "w" 2 10 (by decide) (by decide) [0, 4, 8] 13

end RateLimiter

namespace WebhookManagerPro

/-- C6 counterexample: a 2xx response (status 204, arriving well before the
deadline) whose body is not valid JSON does not yield a success outcome:
`response.json()` throws and `sendDiscordWebhook` surfaces a failure, so
"any 2xx response yields a success outcome" is false on the code. -/
theorem sendDiscordWebhook_2xx_not_success_cx :
    (200 ≤ 204 ∧ 204 < 300)
      ∧ sendDiscordWebhook (.response 204 5 false) ≠ SendOutcome.ok
      ∧ sendDiscordWebhook (.response 204 5 false) = SendOutcome.parseError := by
  decide

/-- C6 (amended): for every dispatch via `sendDiscordWebhook` under the
default 10000 ms deadline: if the deadline elapses before any response the
outcome is the timeout error, which is distinct from the transport error;
a response with a non-2xx status yields the HTTP error retaining the status
code; a transport-level failure with no response yields the transport
error; and a 2xx response yields success provided its body parses as JSON
(a 2xx response with a non-JSON body surfaces the rethrown parse error
instead). -/
theorem sendDiscordWebhook_classification (b : FetchBehavior) :
    (deadlineElapsed b →
        sendDiscordWebhook b = SendOutcome.timeoutError
          ∧ sendDiscordWebhook b ≠ SendOutcome.transportError)
      ∧ (∀ status arrivalMs bodyIsJson,
          b = .response status arrivalMs bodyIsJson →
          arrivalMs < timeoutMsDefault → ¬(200 ≤ status ∧ status < 300) →
          sendDiscordWebhook b = SendOutcome.httpError status)
      ∧ (∀ arrivalMs, b = .transportFailure arrivalMs →
          arrivalMs < timeoutMsDefault →
          sendDiscordWebhook b = SendOutcome.transportError)
      ∧ (∀ status arrivalMs,
          b = .response status arrivalMs true →
          arrivalMs < timeoutMsDefault → 200 ≤ status → status < 300 →
          sendDiscordWebhook b = SendOutcome.ok)
      ∧ (∀ status arrivalMs,
          b = .response status arrivalMs false →
          arrivalMs < timeoutMsDefault → 200 ≤ status → status < 300 →
          sendDiscordWebhook b = SendOutcome.parseError) := by
  refine ⟨?_, ?_, ?_, ?_, ?_⟩
  · intro hd
    cases b with
    | response status arrivalMs bodyIsJson =>
      simp only [deadlineElapsed] at hd
      simp [sendDiscordWebhook, Nat.not_lt_of_le hd]
    | transportFailure arrivalMs =>
      simp only [deadlineElapsed] at hd
      simp [sendDiscordWebhook, Nat.not_lt_of_le hd]
    | hang => simp [sendDiscordWebhook]
  · intro status arrivalMs bodyIsJson hb hlt hbad
    subst hb
    simp [sendDiscordWebhook, hlt, hbad]
  · intro arrivalMs hb hlt
    subst hb
    simp [sendDiscordWebhook, hlt]
  · intro status arrivalMs hb hlt h2 h3
    subst hb
    simp [sendDiscordWebhook, hlt, h2, h3]
  · intro status arrivalMs hb hlt h2 h3
    subst hb
    simp [sendDiscordWebhook, hlt, h2, h3]

/-- C6 witness: concrete behaviours exercising each branch of the
classification — a hang is a timeout, a 404 before the deadline is an HTTP
error retaining 404, an early transport failure is a transport error, and
a 200 with a JSON body is a success. -/
theorem sendDiscordWebhook_classification_witness :
    sendDiscordWebhook FetchBehavior.hang = SendOutcome.timeoutError
      ∧ sendDiscordWebhook (.response 404 5 true) = SendOutcome.httpError 404
      ∧ sendDiscordWebhook (.transportFailure 7) = SendOutcome.transportError
      ∧ sendDiscordWebhook (.response 200 5 true) = SendOutcome.ok := by
  refine ⟨((sendDiscordWebhook_classification .hang).1 trivial).1, ?_, ?_, ?_⟩
  · exact (sendDiscordWebhook_classification (.response 404 5 true)).2.1 404 5 true rfl
      (by decide) (by decide)
  · exact (sendDiscordWebhook_classification (.transportFailure 7)).2.2.1 7 rfl (by decide)
  · exact (sendDiscordWebhook_classification (.response 200 5 true)).2.2.2.1 200 5 rfl
      (by decide) (by decide) (by decide)

end WebhookManagerPro

namespace AnalyticsService

/-- Helper: `track` never changes the consent flag. -/
theorem track_enabled (st : State) (e : AnalyticsEvent) :
    ((track st e).1).enabled = st.enabled := by
  simp only [track]
  split <;> rfl

/-- Helper: with consent granted, tracking a list appends it to the buffer. -/
theorem trackAll_queue (es : List AnalyticsEvent) (st : State)
    (hen : st.enabled = true) :
    (trackAll st es).queue = st.queue ++ es := by
  induction es generalizing st with
  | nil => simp [trackAll]
  | cons e es ih =>
    simp only [trackAll, List.foldl_cons]
    have h1 : (track st e).1 = { st with queue := st.queue ++ [e] } := by
      simp [track, hen]
    rw [h1]
    have := ih { st with queue := st.queue ++ [e] } (by simpa using hen)
    simp only [trackAll] at this
    rw [this]
    simp

/-- C7: if a flush's delivery fails, the events of the failed batch
reappear at the front of the live buffer in their original order, ahead of
every event tracked while the delivery was in flight and of every event
tracked after the failure, and no event of the batch is dropped. -/
theorem flush_failure_requeue (st : State)
    (during later : List AnalyticsEvent)
    (hne : st.queue ≠ []) (hen : st.enabled = true) :
    (trackAll (flush st false during) later).queue
        = st.queue ++ during ++ later
      ∧ ∀ e ∈ st.queue, e ∈ (trackAll (flush st false during) later).queue := by
  have hflush : flush st false during = { st with queue := st.queue ++ during } := by
    simp [flush, hne]
  rw [hflush]
  have h := trackAll_queue later { st with queue := st.queue ++ during }
    (by simpa using hen)
  constructor
  · rw [h]
  · intro e he
    rw [h]
    simp [he]

/-- C7 witness: a two-event batch whose delivery fails, with one event
tracked during the flush and one after: the buffer is the failed batch in
order, then the in-flight event, then the later one. -/
theorem flush_failure_requeue_witness :
    (trackAll
        (flush { enabled := true, queue := [⟨"a", "p", 0⟩, ⟨"b", "q", 1⟩] }
          false [⟨"c", "r", 2⟩])
        [⟨"d", "s", 3⟩]).queue
      = [⟨"a", "p", 0⟩, ⟨"b", "q", 1⟩] ++ [⟨"c", "r", 2⟩] ++ [⟨"d", "s", 3⟩] :=
  (flush_failure_requeue { enabled := true, queue := [⟨"a", "p", 0⟩, ⟨"b", "q", 1⟩] }
    [⟨"c", "r", 2⟩] [⟨"d", "s", 3⟩] (by decide) rfl).1

end AnalyticsService

namespace StatsAggregator

/-- C8: the aggregator updates `averageResponseTimeMs` by the
incremental-mean formula `avg ← avg + (latency − avg) / totalCount`
after each record, failures contributing the latency 0 their callers pass;
consequently recording the successful latencies 100, 200, 300 from empty
stats yields the averages 100, 150 and finally 200 — the arithmetic
mean. -/
theorem record_rolling_average :
    (∀ (st : Stats) (success : Bool) (responseTime : Rat) (now : Int),
        (record st success responseTime now).averageResponseTimeMs
          = st.averageResponseTimeMs
              + (responseTime - st.averageResponseTimeMs)
                / ((st.totalCount : Rat) + 1)
          ∧ (record st success responseTime now).totalCount = st.totalCount + 1)
      ∧ (∀ (st : Stats) (now : Int),
          (record st false 0 now).averageResponseTimeMs
            = st.averageResponseTimeMs
                + (0 - st.averageResponseTimeMs) / ((st.totalCount : Rat) + 1))
      ∧ (record emptyStats true 100 0).averageResponseTimeMs = 100
      ∧ (record (record emptyStats true 100 0) true 200 1).averageResponseTimeMs
          = 150
      ∧ (record (record (record emptyStats true 100 0) true 200 1) true 300 2
          ).averageResponseTimeMs = 200 := by
  refine ⟨?_, ?_, ?_, ?_, ?_⟩
  · intro st success responseTime now
    constructor
    · simp [record]
    · rfl
  · intro st now
    simp [record]
  · norm_num [record, emptyStats]
  · norm_num [record, emptyStats]
  · norm_num [record, emptyStats]

end StatsAggregator

namespace WebhookManager

/-- Helper: every Gregorian month has between 28 and 31 days. -/
theorem daysInMonth_bounds (y m : Int) :
    28 ≤ daysInMonth y m ∧ daysInMonth y m ≤ 31 := by
  unfold daysInMonth
  split_ifs <;> norm_num

/-- Helper: normalisation leaves an in-range day alone. -/
theorem rollForward_of_le (fuel : Nat) (dt : JsDate)
    (h : dt.day ≤ daysInMonth dt.year dt.month) :
    rollForward fuel dt = dt := by
  cases fuel with
  | zero => rfl
  | succ n => simp only [rollForward, if_pos h]

/-- Helper: one normalisation step of an overflowing day. -/
theorem rollForward_succ_of_gt (fuel : Nat) (dt : JsDate)
    (h : ¬ dt.day ≤ daysInMonth dt.year dt.month) :
    rollForward (fuel + 1) dt
      = rollForward fuel
          { year := if dt.month = 11 then dt.year + 1 else dt.year
            month := if dt.month = 11 then 0 else dt.month + 1
            day := dt.day - daysInMonth dt.year dt.month
            msOfDay := dt.msOfDay } := by
  simp only [rollForward, if_neg h]

/-- Helper: `setDate` commutes with the calendar successor while the day
stays within a one-roll overflow of the current month. -/
theorem nextDay_jsSetDate (dt : JsDate) (x : Int) (hv : ValidDate dt)
    (_h1 : 1 ≤ x) (h2 : x ≤ daysInMonth dt.year dt.month + 27) :
    nextDay (jsSetDate dt x) = jsSetDate dt (x + 1) := by
  obtain ⟨hm0, hm1, hd1, hd2, hms0, hms1⟩ := hv
  have hb := daysInMonth_bounds dt.year dt.month
  have hb' := daysInMonth_bounds
    (if dt.month = 11 then dt.year + 1 else dt.year)
    (if dt.month = 11 then 0 else dt.month + 1)
  by_cases hx : x ≤ daysInMonth dt.year dt.month
  · have e1 : jsSetDate dt x = { dt with day := x } :=
      rollForward_of_le 2 { dt with day := x } hx
    by_cases hx1 : x + 1 ≤ daysInMonth dt.year dt.month
    · have e2 : jsSetDate dt (x + 1) = { dt with day := x + 1 } :=
        rollForward_of_le 2 { dt with day := x + 1 } hx1
      rw [e1, e2, nextDay]
      rw [if_pos (by simpa using hx1)]
    · have e2 : jsSetDate dt (x + 1)
          = rollForward 1
              { year := if dt.month = 11 then dt.year + 1 else dt.year
                month := if dt.month = 11 then 0 else dt.month + 1
                day := x + 1 - daysInMonth dt.year dt.month
                msOfDay := dt.msOfDay } :=
        rollForward_succ_of_gt 1 { dt with day := x + 1 } hx1
      rw [e1, e2, rollForward_of_le 1 _ (by simp only; omega), nextDay]
      rw [if_neg (by simp only; omega)]
      simp only [JsDate.mk.injEq, and_true, true_and, eq_self_iff_true]
      omega
  · have e1 : jsSetDate dt x
        = rollForward 1
            { year := if dt.month = 11 then dt.year + 1 else dt.year
              month := if dt.month = 11 then 0 else dt.month + 1
              day := x - daysInMonth dt.year dt.month
              msOfDay := dt.msOfDay } :=
      rollForward_succ_of_gt 1 { dt with day := x } hx
    rw [e1, rollForward_of_le 1 _ (by simp only; omega)]
    have e2 : jsSetDate dt (x + 1)
        = rollForward 1
            { year := if dt.month = 11 then dt.year + 1 else dt.year
              month := if dt.month = 11 then 0 else dt.month + 1
              day := x + 1 - daysInMonth dt.year dt.month
              msOfDay := dt.msOfDay } :=
      rollForward_succ_of_gt 1 { dt with day := x + 1 } (by simp only; omega)
    rw [e2, rollForward_of_le 1 _ (by simp only; omega), nextDay]
    rw [if_pos (by simp only; omega)]
    simp only [JsDate.mk.injEq, and_true, true_and, eq_self_iff_true]
    omega

/-- Helper: `setDate(day + k)` is the `k`-fold calendar successor, for the
shifts (1 and 7) the scheduler uses. -/
theorem jsSetDate_plusDays (dt : JsDate) (hv : ValidDate dt) (k : Nat)
    (hk : k ≤ 27) :
    jsSetDate dt (dt.day + (k : Int)) = plusDays k dt := by
  induction k with
  | zero =>
    have e : jsSetDate dt dt.day = dt := by
      have h : ({ dt with day := dt.day } : JsDate) = dt := rfl
      simpa [jsSetDate, h] using
        rollForward_of_le 2 { dt with day := dt.day } hv.2.2.2.1
    simpa [plusDays] using e
  | succ k ih =>
    have hstep := nextDay_jsSetDate dt (dt.day + (k : Int)) hv
      (by have := hv.2.2.1; omega)
      (by have := hv.2.2.2.1; omega)
    have harg : dt.day + ((k + 1 : Nat) : Int) = (dt.day + (k : Int)) + 1 := by
      push_cast
      ring
    rw [harg, ← hstep, ih (by omega)]
    rfl

/-- Helper: `setMonth(month + 1)` is exactly "plus one calendar month". -/
theorem jsSetMonth_plusOneMonth (dt : JsDate) (hv : ValidDate dt) :
    jsSetMonth dt (dt.month + 1) = plusOneMonth dt := by
  obtain ⟨hm0, hm1, hd1, hd2, hms0, hms1⟩ := hv
  have hb := daysInMonth_bounds dt.year dt.month
  have hb' := daysInMonth_bounds
    (if dt.month = 11 then dt.year + 1 else dt.year)
    (if dt.month = 11 then 0 else dt.month + 1)
  have hrec : ({ year := dt.year + (dt.month + 1) / 12
                 month := (dt.month + 1) % 12
                 day := dt.day
                 msOfDay := dt.msOfDay } : JsDate)
      = { year := if dt.month = 11 then dt.year + 1 else dt.year
          month := if dt.month = 11 then 0 else dt.month + 1
          day := dt.day
          msOfDay := dt.msOfDay } := by
    simp only [JsDate.mk.injEq, and_true, true_and, eq_self_iff_true]
    constructor <;> split_ifs with h <;> omega
  rw [jsSetMonth, hrec]
  simp only [plusOneMonth]
  set y1 : Int := if dt.month = 11 then dt.year + 1 else dt.year with hy1
  set m1 : Int := if dt.month = 11 then 0 else dt.month + 1 with hm1e
  by_cases hday : dt.day ≤ daysInMonth y1 m1
  · rw [if_pos hday]
    exact rollForward_of_le 2 ⟨y1, m1, dt.day, dt.msOfDay⟩ hday
  · rw [if_neg hday]
    have e1 : rollForward 2 (⟨y1, m1, dt.day, dt.msOfDay⟩ : JsDate)
        = rollForward 1 ⟨if m1 = 11 then y1 + 1 else y1,
            if m1 = 11 then 0 else m1 + 1,
            dt.day - daysInMonth y1 m1, dt.msOfDay⟩ :=
      rollForward_succ_of_gt 1 ⟨y1, m1, dt.day, dt.msOfDay⟩ hday
    rw [e1]
    apply rollForward_of_le
    have h31 := (daysInMonth_bounds dt.year dt.month).2
    have h28 := (daysInMonth_bounds
      (if m1 = 11 then y1 + 1 else y1) (if m1 = 11 then 0 else m1 + 1)).1
    simp only
    omega

end WebhookManager

namespace WebhookManager

/-- C2 counterexample: the checker has no in-flight guard.  A daily
schedule due since Jan 1 2024 00:00 is dispatched by the tick at 00:01;
while that dispatch is still in flight nothing in the state changes, and
the next tick at 00:02 selects the very same schedule again — dispatching
it a second time before the first dispatch completed. -/
theorem tick_redispatches_inflight_cx :
    (let s0 : Schedule :=
      { id := "s2", webhookId := "w2", message := "hi", active := true,
        scheduleTime := { year := 2024, month := 0, day := 1, msOfDay := 0 },
        repetition := "daily" }
     let st0 : DashState :=
      { webhooks := [{ id := "w2", name := "hook", url := "u" }],
        schedules := [s0], activities := [] }
     s0 ∈ dueSchedules st0 { year := 2024, month := 0, day := 1, msOfDay := 60000 }
       ∧ s0 ∈ dueSchedules st0 { year := 2024, month := 0, day := 1, msOfDay := 120000 }) := by
  decide

/-- C2 (amended): the tick guard is absent: a tick dispatches every active
schedule with `scheduleTime ≤ now`, consulting nothing else; hence while a
schedule's previous dispatch is still in flight — so its stored state is
unchanged — every later tick dispatches it again. -/
theorem tick_no_inflight_guard (st : DashState) (s : Schedule)
    (now1 now2 : JsDate) (h1 : s ∈ dueSchedules st now1)
    (h12 : jsDateLe now1 now2 = true) :
    s ∈ dueSchedules st now2 := by
  simp only [dueSchedules, List.mem_filter, Bool.and_eq_true, jsDateLe,
    decide_eq_true_eq] at h1 ⊢
  obtain ⟨hmem, hact, hle⟩ := h1
  simp only [jsDateLe, decide_eq_true_eq] at h12
  exact ⟨hmem, hact, by omega⟩

/-- C2 witness: a schedule due at the first tick is still dispatched at the
later tick while its state is unchanged. -/
theorem tick_no_inflight_guard_witness :
    mkSchedule "s2w" "w" "daily" { year := 2024, month := 0, day := 1, msOfDay := 0 }
      ∈ dueSchedules
          { webhooks := [],
            schedules := [mkSchedule "s2w" "w" "daily"
              { year := 2024, month := 0, day := 1, msOfDay := 0 }],
            activities := [] }
          { year := 2024, month := 0, day := 1, msOfDay := 120000 } :=
  tick_no_inflight_guard _ _
    { year := 2024, month := 0, day := 1, msOfDay := 60000 } _
    (by decide) (by decide)

/-- C3 counterexample: a daily schedule with due time Jan 15 2024 00:00
whose dispatch fails keeps its due time unchanged — it is not `T` plus one
day — so the claim, quantified over every execution, is false. -/
theorem failed_execution_not_advanced_cx :
    (let s0 : Schedule :=
      { id := "s3", webhookId := "w3", message := "m", active := true,
        scheduleTime := { year := 2024, month := 0, day := 15, msOfDay := 0 },
        repetition := "daily" }
     let st0 : DashState :=
      { webhooks := [{ id := "w3", name := "n", url := "u" }],
        schedules := [s0], activities := [] }
     (executeSchedule st0 s0 Dispatch.networkError).1.schedules = [s0]
       ∧ nextDay s0.scheduleTime ≠ s0.scheduleTime) := by
  decide

/-- C3 (amended): only a successful execution advances the due time, and
then the new due time is computed from the previous due time `T` alone —
daily is the calendar successor of `T`, weekly is `T` plus seven days,
monthly is `T` plus one calendar month — never from the wall-clock moment
of the tick (`calculateNextSchedule` reads only the schedule's stored due
time and repetition), so a late tick does not shift subsequent due times;
a failed execution leaves the due time unchanged. -/
theorem recurrence_advance_from_previous_due (s : Schedule)
    (hv : ValidDate s.scheduleTime) :
    (s.repetition = "daily" →
        calculateNextSchedule s = some (nextDay s.scheduleTime))
      ∧ (s.repetition = "weekly" →
        calculateNextSchedule s = some (plusDays 7 s.scheduleTime))
      ∧ (s.repetition = "monthly" →
        calculateNextSchedule s = some (plusOneMonth s.scheduleTime))
      ∧ (∀ s' : Schedule, s'.scheduleTime = s.scheduleTime →
          s'.repetition = s.repetition →
          calculateNextSchedule s' = calculateNextSchedule s)
      ∧ (∀ (st : DashState) (nextTime : JsDate),
          st.webhooks.find? (fun w => w.id == s.webhookId) ≠ none →
          s.repetition ≠ "once" →
          calculateNextSchedule s = some nextTime →
          (executeSchedule st s Dispatch.ok).1.schedules
            = st.schedules.map (fun t =>
                if t.id == s.id then { t with scheduleTime := nextTime } else t)) := by
  refine ⟨?_, ?_, ?_, ?_, ?_⟩
  · intro h
    have h1 := jsSetDate_plusDays s.scheduleTime hv 1 (by omega)
    simp only [calculateNextSchedule, h]
    rw [show ((1 : Nat) : Int) = 1 from rfl] at h1
    rw [h1]
    rfl
  · intro h
    have h7 := jsSetDate_plusDays s.scheduleTime hv 7 (by omega)
    simp only [calculateNextSchedule, h]
    rw [show ((7 : Nat) : Int) = 7 from rfl] at h7
    rw [h7]
  · intro h
    simp only [calculateNextSchedule, h]
    rw [jsSetMonth_plusOneMonth s.scheduleTime hv]
  · intro s' ht hr
    simp only [calculateNextSchedule, ht, hr]
  · intro st nextTime hw honce hcalc
    obtain ⟨w, hw'⟩ := Option.ne_none_iff_exists'.mp hw
    simp [executeSchedule, hw', honce, hcalc]

/-- C3 witness: a concrete daily schedule due Jan 31 2024 23:30 advances to
Feb 1 2024 23:30 — the calendar successor of the previous due time. -/
theorem recurrence_advance_witness :
    calculateNextSchedule
        { id := "s3w", webhookId := "w", message := "m", active := true,
          scheduleTime := { year := 2024, month := 0, day := 31, msOfDay := 84600000 },
          repetition := "daily" }
      = some (nextDay { year := 2024, month := 0, day := 31, msOfDay := 84600000 }) :=
  (recurrence_advance_from_previous_due
    { id := "s3w", webhookId := "w", message := "m", active := true,
      scheduleTime := { year := 2024, month := 0, day := 31, msOfDay := 84600000 },
      repetition := "daily" } (by decide)).1 rfl

/-- C4 counterexample: a weekly schedule whose dispatch fails with an HTTP
500 keeps its stored due time — the recurrence rule's advance (`T` plus
seven days) is not applied — falsifying "its due time is still advanced". -/
theorem failed_dispatch_not_advanced_cx :
    (let s0 : Schedule :=
      { id := "s4", webhookId := "w4", message := "m", active := true,
        scheduleTime := { year := 2025, month := 5, day := 10, msOfDay := 0 },
        repetition := "weekly" }
     let st0 : DashState :=
      { webhooks := [{ id := "w4", name := "n", url := "u" }],
        schedules := [s0], activities := [] }
     (executeSchedule st0 s0 (Dispatch.httpError 500)).1.schedules = [s0]
       ∧ plusDays 7 s0.scheduleTime ≠ s0.scheduleTime) := by
  decide

/-- C4 (amended): a failed dispatch of a schedule whose webhook exists
leaves the schedule list untouched — the schedule stays active and present
but its due time is NOT advanced — while a `message_failed` entry is pushed
onto the capped activity log; the network call was attempted.  The failure
count the dashboard reports (the number of `message_failed` activities)
therefore increments by one whenever the log is below its 100-entry cap;
with a full log the oldest entry is evicted, so the count can stay flat
when the evicted entry was itself a `message_failed`. -/
theorem failed_dispatch_semantics (st : DashState) (s : Schedule)
    (d : Dispatch)
    (hw : st.webhooks.find? (fun w => w.id == s.webhookId) ≠ none)
    (hd : d ≠ Dispatch.ok) :
    (executeSchedule st s d).1.schedules = st.schedules
      ∧ (executeSchedule st s d).1.activities
          = addActivity st.activities "message_failed"
      ∧ (st.activities.length < 100 →
          failedMessages (executeSchedule st s d).1 = failedMessages st + 1)
      ∧ (executeSchedule st s d).2 = true := by
  obtain ⟨w, hw'⟩ := Option.ne_none_iff_exists'.mp hw
  have hact : ∀ hlen : st.activities.length < 100,
      addActivity st.activities "message_failed"
        = st.activities ++ ["message_failed"] := by
    intro hlen
    unfold addActivity
    rw [if_neg (by simp; omega)]
  cases d with
  | ok => exact absurd rfl hd
  | httpError status =>
    refine ⟨?_, ?_, fun hlen => ?_, ?_⟩
    · simp [executeSchedule, hw']
    · simp [executeSchedule, hw']
    · simp [executeSchedule, hw', failedMessages, hact hlen, List.filter_append]
    · simp [executeSchedule, hw']
  | networkError =>
    refine ⟨?_, ?_, fun hlen => ?_, ?_⟩
    · simp [executeSchedule, hw']
    · simp [executeSchedule, hw']
    · simp [executeSchedule, hw', failedMessages, hact hlen, List.filter_append]
    · simp [executeSchedule, hw']

/-- C4 witness: a concrete failing dispatch — the schedule list is
untouched and the failed-message count goes from 0 to 1. -/
theorem failed_dispatch_semantics_witness :
    (executeSchedule
        { webhooks := [mkWebhook "w4w"],
          schedules := [mkSchedule "s4w" "w4w" "weekly"
            { year := 2025, month := 5, day := 10, msOfDay := 0 }],
          activities := [] }
        (mkSchedule "s4w" "w4w" "weekly"
          { year := 2025, month := 5, day := 10, msOfDay := 0 })
        Dispatch.networkError).1.schedules
      = [mkSchedule "s4w" "w4w" "weekly"
          { year := 2025, month := 5, day := 10, msOfDay := 0 }]
      ∧ failedMessages (executeSchedule
          { webhooks := [mkWebhook "w4w"],
            schedules := [mkSchedule "s4w" "w4w" "weekly"
              { year := 2025, month := 5, day := 10, msOfDay := 0 }],
            activities := [] }
          (mkSchedule "s4w" "w4w" "weekly"
            { year := 2025, month := 5, day := 10, msOfDay := 0 })
          Dispatch.networkError).1 = 0 + 1 := by
  have h := failed_dispatch_semantics
    { webhooks := [mkWebhook "w4w"],
      schedules := [mkSchedule "s4w" "w4w" "weekly"
        { year := 2025, month := 5, day := 10, msOfDay := 0 }],
      activities := [] }
    (mkSchedule "s4w" "w4w" "weekly"
      { year := 2025, month := 5, day := 10, msOfDay := 0 })
    Dispatch.networkError (by decide) (by decide)
  exact ⟨h.1, h.2.2.1 (by decide)⟩

/-- C5 counterexample: a schedule whose webhook has been deleted is skipped
silently: `executeSchedule` returns at once — no network call, but also no
failure outcome recorded (the activity log stays empty) and no recurrence
advance (the stored due time stays `T`, not `T` plus one day) — falsifying
the claimed failure record and advance. -/
theorem missing_webhook_silent_skip_cx :
    (let s0 : Schedule :=
      { id := "s5", webhookId := "w5", message := "m", active := true,
        scheduleTime := { year := 2026, month := 2, day := 3, msOfDay := 0 },
        repetition := "daily" }
     let st0 : DashState :=
      { webhooks := [], schedules := [s0], activities := [] }
     executeSchedule st0 s0 Dispatch.ok = (st0, false)
       ∧ failedMessages (executeSchedule st0 s0 Dispatch.ok).1 = 0
       ∧ nextDay s0.scheduleTime ≠ s0.scheduleTime) := by
  decide

/-- C5 (amended): when the referenced webhook is missing (the Dash code has
no inactive-webhook notion on this path), `executeSchedule` returns the
state unchanged and attempts no network call: no failure outcome is
recorded and no recurrence advance happens, so the schedule stays active and
due and every later tick skips it the same way. -/
theorem missing_webhook_noop (st : DashState) (s : Schedule) (d : Dispatch)
    (hw : st.webhooks.find? (fun w => w.id == s.webhookId) = none) :
    executeSchedule st s d = (st, false) := by
  simp [executeSchedule, hw]

/-- C5 witness: concrete missing-webhook skip. -/
theorem missing_webhook_noop_witness :
    executeSchedule
        { webhooks := [], schedules := [], activities := [] }
        { id := "s5w", webhookId := "w5w", message := "m", active := true,
          scheduleTime := { year := 2026, month := 2, day := 3, msOfDay := 0 },
          repetition := "daily" }
        Dispatch.ok
      = ({ webhooks := [], schedules := [], activities := [] }, false) :=
  missing_webhook_noop _ _ _ (by decide)

/-- C9 counterexample: a schedule with the unrecognized repetition
"hourly" is NOT treated like a once schedule: after a successful execution
it is still present and active with an unchanged due time, and the next
tick dispatches it again. -/
theorem unrecognized_recurrence_cx :
    (let s0 : Schedule :=
      { id := "s9", webhookId := "w9", message := "m", active := true,
        scheduleTime := { year := 2024, month := 3, day := 5, msOfDay := 0 },
        repetition := "hourly" }
     let st0 : DashState :=
      { webhooks := [{ id := "w9", name := "n", url := "u" }],
        schedules := [s0], activities := [] }
     (executeSchedule st0 s0 Dispatch.ok).1.schedules = [s0]
       ∧ s0 ∈ dueSchedules (executeSchedule st0 s0 Dispatch.ok).1
            { year := 2024, month := 3, day := 5, msOfDay := 60000 }) := by
  decide

/-- C9 (amended): an unrecognized repetition value is not deactivated:
`calculateNextSchedule` returns null for it, so a successful execution
leaves the schedule list unchanged — the schedule stays active with the
same due time and every later tick selects the same due schedules as
before. -/
theorem unrecognized_recurrence_noop (st : DashState) (s : Schedule)
    (hw : st.webhooks.find? (fun w => w.id == s.webhookId) ≠ none)
    (h1 : s.repetition ≠ "once") (h2 : s.repetition ≠ "daily")
    (h3 : s.repetition ≠ "weekly") (h4 : s.repetition ≠ "monthly") :
    (executeSchedule st s Dispatch.ok).1.schedules = st.schedules
      ∧ ∀ now, dueSchedules (executeSchedule st s Dispatch.ok).1 now
          = dueSchedules st now := by
  have hcalc : calculateNextSchedule s = none := by
    unfold calculateNextSchedule
    split <;> simp_all
  obtain ⟨w, hw'⟩ := Option.ne_none_iff_exists'.mp hw
  have hsched : (executeSchedule st s Dispatch.ok).1.schedules = st.schedules := by
    simp [executeSchedule, hw', h1, hcalc]
  refine ⟨hsched, fun now => ?_⟩
  simp only [dueSchedules, hsched]

/-- C9 witness: a concrete "hourly" schedule is left untouched by a
successful execution. -/
theorem unrecognized_recurrence_noop_witness :
    (executeSchedule
        { webhooks := [mkWebhook "w9w"],
          schedules := [mkSchedule "s9w" "w9w" "hourly"
            { year := 2024, month := 3, day := 5, msOfDay := 0 }],
          activities := [] }
        (mkSchedule "s9w" "w9w" "hourly"
          { year := 2024, month := 3, day := 5, msOfDay := 0 })
        Dispatch.ok).1.schedules
      = [mkSchedule "s9w" "w9w" "hourly"
          { year := 2024, month := 3, day := 5, msOfDay := 0 }] :=
  (unrecognized_recurrence_noop
    { webhooks := [mkWebhook "w9w"],
      schedules := [mkSchedule "s9w" "w9w" "hourly"
        { year := 2024, month := 3, day := 5, msOfDay := 0 }],
      activities := [] }
    (mkSchedule "s9w" "w9w" "hourly"
      { year := 2024, month := 3, day := 5, msOfDay := 0 })
    (by decide) (by decide) (by decide) (by decide) (by decide)).1

end WebhookManager
